import Mathlib

/-!
Shallow embedding of the core of the `vibe-wfm` scheduling application
(`src/App.tsx`, `src/indexedDb.ts` and the full application variant shown in
the repository documentation): time math, the viewport virtualizer, the shift
index, the modal save handler, the pointer-resize and drag-drop handlers, and
the IndexedDB load/save gating.

Modelling conventions:
* JavaScript numbers are modelled as `ℤ` where the source only ever holds
  integers (minute values, indices) and as `ℚ` for pixel coordinates and
  other possibly-fractional quantities.  `NaN` is modelled explicitly, as
  `Option ℤ` (`none` = `NaN`), in the modal save pipeline, where JavaScript
  `NaN` propagation is observable; infinities do not arise on the modelled
  code paths (all divisors used by the source are positive constants).
* `Math.round`, `Math.floor`, `Math.ceil` are `jsRound`, `Int.floor`,
  `Int.ceil` on `ℚ`; `Math.min`/`Math.max` are `min`/`max`.
* JavaScript strings are Lean `String`s; `String.prototype.split` with a
  one-character separator is `splitOnChar` on the underlying character list,
  and `Number(...)` is `jsNumber`, modelled for the strings the embedded
  call sites can receive (components of `"HH:MM"` / `"YYYY-MM-DD"` values
  coming from `<input type="time">` / `<input type="date">` and from the
  app's own formatters): strings of decimal digits, with the empty string
  evaluating to `0` exactly as in JavaScript; anything else is `NaN`.
-/

/-- Minutes in a day, `MINUTES_IN_DAY = 24 * 60` from the source. -/
def MINUTES_IN_DAY : ℤ := 24 * 60

/-- Snap step in minutes, `SNAP_MINUTES = 15` from the source. -/
def SNAP_MINUTES : ℤ := 15

/-- Minimal shift duration, `MIN_SHIFT_MINUTES = 30` from the source. -/
def MIN_SHIFT_MINUTES : ℤ := 30

/-- Hour column width in pixels, `HOUR_WIDTH = 72` from the source. -/
def HOUR_WIDTH : ℚ := 72

/-- Models `clamp(value, min, max) = Math.min(Math.max(value, min), max)`
on integer values. -/
def clamp (value lo hi : ℤ) : ℤ := min (max value lo) hi

/-- Models `clamp(value, min, max) = Math.min(Math.max(value, min), max)`
on (possibly fractional) pixel values. -/
def clampQ (value lo hi : ℚ) : ℚ := min (max value lo) hi

/-- Models `Math.round` on a finite number: round half up,
`Math.round(x) = ⌊x + 1/2⌋`. -/
def jsRound (x : ℚ) : ℤ := ⌊x + 1 / 2⌋

/-- Models `snapToStep(value, step = SNAP_MINUTES) =
Math.round(value / step) * step`.  The `step` argument is never overridden
at any call site of the source, so it is fixed to `SNAP_MINUTES` here.
The result is the integer multiple of the step nearest to `value`. -/
def snapToStep (value : ℚ) : ℤ := jsRound (value / (SNAP_MINUTES : ℚ)) * SNAP_MINUTES

/-- Result record of `getVirtualRange` (`{start, end}`, inclusive indices). -/
structure VirtualRange where
  start : ℤ
  «end» : ℤ
deriving DecidableEq, Repr

/-- Models `getVirtualRange(itemCount, itemSize, viewportStartPx,
viewportEndPx, overscan)` from the source: empty range `{0, -1}` for
`itemCount <= 0`, otherwise floor/ceil of the clipped viewport edges divided
by the item size, padded by the overscan and clamped to `[0, itemCount-1]`.
Counts and overscans are integers at every call site; pixel inputs are
modelled as `ℚ`. -/
def getVirtualRange (itemCount : ℤ) (itemSize : ℚ)
    (viewportStartPx viewportEndPx : ℚ) (overscan : ℤ) : VirtualRange :=
  if itemCount ≤ 0 then ⟨0, -1⟩
  else
    let safeStart := max viewportStartPx 0
    let safeEnd := max viewportEndPx 0
    let start := clamp (⌊safeStart / itemSize⌋ - overscan) 0 (itemCount - 1)
    let stop := clamp (⌈safeEnd / itemSize⌉ + overscan) 0 (itemCount - 1)
    ⟨start, stop⟩

/-- Helper: `jsRound` moves a rational by at most one half. -/
theorem abs_jsRound_sub_le (x : ℚ) : |((jsRound x : ℤ) : ℚ) - x| ≤ 1 / 2 := by
  have h1 : ((jsRound x : ℤ) : ℚ) ≤ x + 1 / 2 := Int.floor_le _
  have h2 : x + 1 / 2 - 1 < ((jsRound x : ℤ) : ℚ) := Int.sub_one_lt_floor _
  rw [abs_le]
  constructor <;> linarith

/-- C7: `snapToStep` always lands on a multiple of the snap step, and moves
its input by at most half a step (7.5 minutes) — not by at most 7 minutes as
claimed: the midpoint `v = 7.5` is moved by exactly `7.5`. -/
theorem c7_snap_bounds (v : ℚ) :
    SNAP_MINUTES ∣ snapToStep v ∧ |((snapToStep v : ℤ) : ℚ) - v| ≤ (SNAP_MINUTES : ℚ) / 2 := by
  constructor
  · exact Dvd.intro_left _ rfl
  · have hstep : ((SNAP_MINUTES : ℤ) : ℚ) = 15 := by norm_num [SNAP_MINUTES]
    have h := abs_jsRound_sub_le (v / 15)
    have hcast : ((snapToStep v : ℤ) : ℚ) = ((jsRound (v / 15) : ℤ) : ℚ) * 15 := by
      unfold snapToStep
      rw [hstep]
      push_cast [SNAP_MINUTES]
      ring_nf
    have hv : ((jsRound (v / 15) : ℤ) : ℚ) * 15 - v
        = 15 * (((jsRound (v / 15) : ℤ) : ℚ) - v / 15) := by ring
    rw [hcast, hstep, hv, abs_mul]
    have habs : |(15 : ℚ)| = 15 := by norm_num
    rw [habs]
    linarith

/-- C7 counterexample: at the midpoint `v = 7.5` the snapped value is `15`,
which differs from `v` by `7.5 > 7`, refuting `|snapToStep(v) - v| <= 7`. -/
theorem c7_counterexample :
    snapToStep (15 / 2 : ℚ) = 15 ∧ ¬ |((snapToStep (15 / 2 : ℚ) : ℤ) : ℚ) - 15 / 2| ≤ 7 := by
  have hval : snapToStep (15 / 2 : ℚ) = 15 := by
    unfold snapToStep jsRound SNAP_MINUTES
    norm_num
  refine ⟨hval, ?_⟩
  rw [hval]
  have habs : |((15 : ℤ) : ℚ) - 15 / 2| = 15 / 2 := by
    rw [abs_of_nonneg] <;> norm_num
  rw [habs]
  norm_num

/-- C4: `getVirtualRange` returns the empty range `{0, -1}` for
`itemCount <= 0`, and otherwise the clamped floor/ceil formulas of the
specification; at `itemCount = 10`, `itemSize = 50`,
`viewportStartPx = 120`, `viewportEndPx = 320`, `overscan = 1` it returns
`start = 1`, `end = 8`. -/
theorem c4_virtual_range_spec (itemCount : ℤ) (itemSize : ℚ)
    (viewportStartPx viewportEndPx : ℚ) (overscan : ℤ) :
    (itemCount ≤ 0 →
      getVirtualRange itemCount itemSize viewportStartPx viewportEndPx overscan = ⟨0, -1⟩)
    ∧ (0 < itemCount →
      (getVirtualRange itemCount itemSize viewportStartPx viewportEndPx overscan).start
        = clamp (⌊max viewportStartPx 0 / itemSize⌋ - overscan) 0 (itemCount - 1)
      ∧ (getVirtualRange itemCount itemSize viewportStartPx viewportEndPx overscan).«end»
        = clamp (⌈max viewportEndPx 0 / itemSize⌉ + overscan) 0 (itemCount - 1))
    ∧ getVirtualRange 10 50 120 320 1 = ⟨1, 8⟩ := by
  refine ⟨fun h => by simp [getVirtualRange, h], fun h => ?_, ?_⟩
  · have h' : ¬ itemCount ≤ 0 := not_le.mpr h
    constructor <;> simp [getVirtualRange, h']
  · have h120 : max (120 : ℚ) 0 = 120 := by norm_num
    have h320 : max (320 : ℚ) 0 = 320 := by norm_num
    have hf : ⌊(120 : ℚ) / 50⌋ = 2 := by norm_num
    have hc : ⌈(320 : ℚ) / 50⌉ = 7 := by
      have h1 : ⌈-(-((320 : ℚ) / 50))⌉ = -⌊-((320 : ℚ) / 50)⌋ := Int.ceil_neg
      have h2 : ⌊-((320 : ℚ) / 50)⌋ = -7 := by norm_num
      rw [h2] at h1
      simpa using h1
    simp only [getVirtualRange, h120, h320, hf, hc]
    norm_num [clamp]

/-- C4 witness: the theorem instantiated at the concrete example of the
specification. -/
theorem c4_virtual_range_witness : getVirtualRange 10 50 120 320 1 = ⟨1, 8⟩ :=
  (c4_virtual_range_spec 10 50 120 320 1).2.2

/-- Models `String.prototype.split` with a one-character separator, on the
underlying character list: `splitOnChar sep l` never returns an empty list,
and returns `[[]]` on the empty string, like `"".split(c)` returning
`[""]`. -/
def splitOnChar (sep : Char) : List Char → List (List Char)
  | [] => [[]]
  | c :: cs =>
    let rest := splitOnChar sep cs
    if c = sep then [] :: rest
    else
      match rest with
      | [] => [[c]]
      | h :: t => (c :: h) :: t

/-- Value of a list of decimal digits read as a base-10 numeral. -/
def digitsToNat (l : List Char) : ℕ :=
  l.foldl (fun a c => 10 * a + (c.toNat - 48)) 0

/-- Models JavaScript `Number(component)` for the component strings reachable
in the embedded call sites (pieces of `"HH:MM"` / `"YYYY-MM-DD"` values,
which `<input type="time">` / `<input type="date">` and the app's own
formatters keep to decimal digits): the empty string evaluates to `0`
exactly as in JavaScript, a string of decimal digits to its numeral value,
and anything else to `NaN`, modelled as `none`. -/
def jsNumber (s : List Char) : Option ℤ :=
  if s.isEmpty then some 0
  else if s.all Char.isDigit then some (digitsToNat s)
  else none

/-- Models `String(n).padStart(2, '0')` on a natural number. -/
def pad2 (n : ℕ) : List Char :=
  let s := Nat.toDigits 10 n
  if s.length < 2 then '0' :: s else s

/-- Models `formatTime(minutes)`: clamp to `[0, MINUTES_IN_DAY]`, then
zero-padded `"HH:MM"`.  `Math.floor(normalized / 60)` and `normalized % 60`
agree with natural division/remainder because the clamped value is a
non-negative integer. -/
def formatTime (minutes : ℤ) : String :=
  let normalized := clamp minutes 0 MINUTES_IN_DAY
  let h := normalized.toNat / 60
  let m := normalized.toNat % 60
  String.mk (pad2 h ++ ':' :: pad2 m)

/-- Result of `parseTime`: JavaScript distinguishes an explicit `null`
(returned on a `NaN` component or an out-of-range hour/minute) from a `NaN`
result, which arises when the string has no `':'` at all — then the minute
component is `undefined`, both `Number.isNaN` guards pass (`Number.isNaN` is
false on `undefined`), the range checks on the minute are all false, and
`h * 60 + undefined` evaluates to `NaN`. -/
inductive JsTime
  | null
  | nan
  | fin (minutes : ℤ)
deriving DecidableEq, Repr

/-- Models `parseTime(value)`: split on `':'`, convert the first two
components with `Number`, reject `NaN` components and out-of-range
hours/minutes with `null`; if the minute component is missing (`undefined`),
the guards pass whenever the hour is in range and the result is `NaN`. -/
def parseTime (value : String) : JsTime :=
  match (splitOnChar ':' value.data).map jsNumber with
  | [] => JsTime.nan
  | h? :: rest =>
    match h? with
    | none => JsTime.null
    | some h =>
      match rest with
      | [] => if h < 0 ∨ 23 < h then JsTime.null else JsTime.nan
      | m? :: _ =>
        match m? with
        | none => JsTime.null
        | some m =>
          if h < 0 ∨ 23 < h ∨ m < 0 ∨ 59 < m then JsTime.null
          else JsTime.fin (h * 60 + m)

/-- Days since 1970-01-01 of a proleptic-Gregorian civil date
(days-from-civil algorithm, floor divisions). -/
def daysFromCivil (y m d : ℤ) : ℤ :=
  let y' := y - (if m ≤ 2 then 1 else 0)
  let era := Int.fdiv y' 400
  let yoe := y' - era * 400
  let mp := m + (if 2 < m then -3 else 9)
  let doy := Int.fdiv (153 * mp + 2) 5 + d - 1
  let doe := yoe * 365 + Int.fdiv yoe 4 - Int.fdiv yoe 100 + doy
  era * 146097 + doe - 719468

/-- Civil date (year, month, day) of a day number since 1970-01-01
(civil-from-days algorithm, floor divisions). -/
def civilFromDays (z : ℤ) : ℤ × ℤ × ℤ :=
  let z' := z + 719468
  let era := Int.fdiv z' 146097
  let doe := z' - era * 146097
  let yoe := Int.fdiv (doe - Int.fdiv doe 1460 + Int.fdiv doe 36524 - Int.fdiv doe 146096) 365
  let y := yoe + era * 400
  let doy := doe - (365 * yoe + Int.fdiv yoe 4 - Int.fdiv yoe 100)
  let mp := Int.fdiv (5 * doy + 2) 153
  let d := doy - Int.fdiv (153 * mp + 2) 5 + 1
  let m := mp + (if mp < 10 then 3 else -9)
  (y + (if m ≤ 2 then 1 else 0), m, d)

/-- Models `new Date(y, m - 1, d)` followed by
`(getFullYear(), getMonth() + 1, getDate())`: the historical remap of years
`0..99` to `1900..1999`, month/day rollover by day-number normalization on
the proleptic Gregorian calendar, and the `±1e8`-day time clip beyond which
the date is invalid (`none`). -/
def jsMakeDate (y m d : ℤ) : Option (ℤ × ℤ × ℤ) :=
  let yy := if 0 ≤ y ∧ y ≤ 99 then 1900 + y else y
  let ym := yy + Int.fdiv (m - 1) 12
  let mm := Int.emod (m - 1) 12 + 1
  let days := daysFromCivil ym mm 1 + (d - 1)
  if days < -100000000 ∨ 100000000 < days then none
  else some (civilFromDays days)

/-- Models `parseDateKey(value)`: split on `'-'`, convert the first three
components with `Number`, reject `NaN` components, build the date with
rollover, and return it only if year, month and day survive the round-trip
unchanged (rejecting e.g. `"2024-02-30"`). -/
def parseDateKey (value : String) : Option (ℤ × ℤ × ℤ) :=
  match (splitOnChar '-' value.data).map jsNumber with
  | some y :: some m :: some d :: _ =>
    match jsMakeDate y m d with
    | none => none
    | some (fy, fm, fd) =>
      if fy = y ∧ fm = m ∧ fd = d then some (fy, fm, fd) else none
  | _ => none

set_option maxRecDepth 4000 in
set_option maxHeartbeats 4000000 in
/-- Helper for the time round-trip: checked for every hour/minute pair. -/
theorem parseTime_formatTime_hm : ∀ h : ℕ, h < 24 → ∀ m : ℕ, m < 60 →
    parseTime (formatTime ((60 * h + m : ℕ) : ℤ)) = JsTime.fin ((60 * h + m : ℕ) : ℤ) := by
  decide

/-- C6 (amended): formatting and re-parsing recovers every minute value of
`[0, 1440)`; the endpoint `1440` itself formats as `"24:00"`, whose hour
`24` is rejected by `parseTime`, so the claimed round-trip fails there. -/
theorem c6_roundtrip (m : ℤ) (h0 : 0 ≤ m) (h1 : m < 1440) :
    parseTime (formatTime m) = JsTime.fin (clamp m 0 MINUTES_IN_DAY) := by
  have hn : ((m.toNat : ℕ) : ℤ) = m := Int.toNat_of_nonneg h0
  have hh : m.toNat / 60 < 24 := by omega
  have hm : m.toNat % 60 < 60 := Nat.mod_lt _ (by norm_num)
  have key := parseTime_formatTime_hm (m.toNat / 60) hh (m.toNat % 60) hm
  rw [Nat.div_add_mod] at key
  rw [hn] at key
  have hclamp : clamp m 0 MINUTES_IN_DAY = m := by
    unfold clamp MINUTES_IN_DAY
    rw [max_eq_left h0, min_eq_left (by omega)]
  rw [hclamp]
  exact key

/-- C6 counterexample: at the endpoint `m = 1440` the clamp is the identity
but the round-trip returns `null` (`"24:00"` does not parse back), refuting
the claim for the closed interval `[0, 1440]`. -/
theorem c6_counterexample :
    clamp 1440 0 MINUTES_IN_DAY = 1440 ∧ parseTime (formatTime 1440) = JsTime.null := by
  exact ⟨by decide, by decide⟩

/-- C6 witness: the amended theorem at `m = 570` (`"09:30"`). -/
theorem c6_roundtrip_witness :
    parseTime (formatTime 570) = JsTime.fin (clamp 570 0 MINUTES_IN_DAY) :=
  c6_roundtrip 570 (by decide) (by decide)

/-- C10: `parseTime` looks only at the first two `':'`-separated components;
whenever those convert to an in-range hour and minute, it returns
`hour * 60 + minute` and silently ignores everything after the second
component. -/
theorem c10_parse_time_extra_components (value : String) (h m : ℤ)
    (rest : List (Option ℤ))
    (hsplit : (splitOnChar ':' value.data).map jsNumber = some h :: some m :: rest)
    (hh0 : 0 ≤ h) (hh : h ≤ 23) (hm0 : 0 ≤ m) (hm : m ≤ 59) :
    parseTime value = JsTime.fin (h * 60 + m) := by
  unfold parseTime
  rw [hsplit]
  have hcond : ¬ (h < 0 ∨ 23 < h ∨ m < 0 ∨ 59 < m) := by omega
  simp only [if_neg hcond]

/-- C10 witness: `parseTime "09:30:00" = 570` — the trailing seconds
component is ignored rather than making the parse fail. -/
theorem c10_parse_time_witness : parseTime "09:30:00" = JsTime.fin 570 := by
  have key := c10_parse_time_extra_components "09:30:00" 9 30 [some 0]
    (by decide) (by decide) (by decide) (by decide) (by decide)
  simpa using key

/-- A shift record (`Shift` in the source).  Minute values are integers on
every modelled gesture path (all in-app mutations produce integers); the
modal save pipeline, where JavaScript `NaN` can appear, is modelled
separately below with explicit `NaN` values. -/
structure Shift where
  id : String
  employeeId : String
  dateKey : String
  title : String
  start : ℤ
  «end» : ℤ
deriving DecidableEq, Repr

/-- Resize handle side, `'left' | 'right'` in the source. -/
inductive Edge
  | left
  | right
deriving DecidableEq, Repr

/-- The captured resize gesture state (`ResizeState` in the source). -/
structure ResizeState where
  shiftId : String
  edge : Edge
  originX : ℚ
  originStart : ℤ
  originEnd : ℤ
  pixelsPerHour : ℚ
deriving DecidableEq, Repr

/-- Models `startResize`: capture the shift's id, the grabbed edge, the
pointer-down x coordinate, the shift's current start/end and the pixel
scale. -/
def startResize (shift : Shift) (edge : Edge) (clientX pixelsPerHour : ℚ) : ResizeState :=
  ⟨shift.id, edge, clientX, shift.start, shift.«end», pixelsPerHour⟩

/-- The `deltaMinutes` computed by the resize `onPointerMove` handler:
`snapToStep((event.clientX - originX) / pixelsPerHour * 60)`. -/
def resizeDeltaMinutes (rs : ResizeState) (clientX : ℚ) : ℤ :=
  let deltaPx := clientX - rs.originX
  snapToStep (deltaPx / rs.pixelsPerHour * 60)

/-- The per-shift update performed by the resize `onPointerMove` handler:
shifts with a different id are untouched; for the resized shift, the left
edge sets `start = clamp(originStart + deltaMinutes, 0, originEnd - 30)`
keeping `end = originEnd`, and the right edge sets
`end = clamp(originEnd + deltaMinutes, originStart + 30, 1440)` keeping
`start = originStart`. -/
def applyResize (rs : ResizeState) (deltaMinutes : ℤ) (shift : Shift) : Shift :=
  if shift.id ≠ rs.shiftId then shift
  else
    match rs.edge with
    | Edge.left =>
      let nextStart :=
        clamp (rs.originStart + deltaMinutes) 0 (rs.originEnd - MIN_SHIFT_MINUTES)
      {shift with start := nextStart, «end» := rs.originEnd}
    | Edge.right =>
      let nextEnd :=
        clamp (rs.originEnd + deltaMinutes) (rs.originStart + MIN_SHIFT_MINUTES) MINUTES_IN_DAY
      {shift with start := rs.originStart, «end» := nextEnd}

/-- Models the resize `onPointerMove` handler: `setShifts(prev =>
prev.map(...))` with the per-shift update above. -/
def resizePointerMove (rs : ResizeState) (clientX : ℚ) (shifts : List Shift) : List Shift :=
  shifts.map (applyResize rs (resizeDeltaMinutes rs clientX))

/-- Clamping never exceeds the upper bound. -/
theorem clamp_le_hi (v lo hi : ℤ) : clamp v lo hi ≤ hi := min_le_right _ _

/-- Clamping reaches at least the lower bound when the bounds are ordered. -/
theorem lo_le_clamp (v lo hi : ℤ) (h : lo ≤ hi) : lo ≤ clamp v lo hi :=
  le_min (le_max_right _ _) h

/-- C1 (amended): for a resize state with `originStart + 30 ≤ originEnd`
and — as the counterexample forces — `originEnd ≤ 1440` (both hold for any
state captured from a shift satisfying the data-model invariants), every
pointer move maps the shift collection with the claimed per-edge clamp
formulas, leaves other shifts untouched, and the resized shift always ends
after it starts with a duration of at least 30 minutes. -/
theorem c1_resize_clamps (rs : ResizeState) (clientX : ℚ) (shifts : List Shift)
    (hmin : rs.originStart + MIN_SHIFT_MINUTES ≤ rs.originEnd)
    (hmax : rs.originEnd ≤ MINUTES_IN_DAY) :
    resizePointerMove rs clientX shifts
      = shifts.map (applyResize rs (snapToStep ((clientX - rs.originX) / rs.pixelsPerHour * 60)))
    ∧ ∀ s ∈ shifts,
        (s.id ≠ rs.shiftId → applyResize rs (resizeDeltaMinutes rs clientX) s = s)
        ∧ (s.id = rs.shiftId →
            (rs.edge = Edge.left →
              (applyResize rs (resizeDeltaMinutes rs clientX) s).start
                  = clamp (rs.originStart + resizeDeltaMinutes rs clientX) 0
                      (rs.originEnd - MIN_SHIFT_MINUTES)
                ∧ (applyResize rs (resizeDeltaMinutes rs clientX) s).«end» = rs.originEnd)
            ∧ (rs.edge = Edge.right →
              (applyResize rs (resizeDeltaMinutes rs clientX) s).«end»
                  = clamp (rs.originEnd + resizeDeltaMinutes rs clientX)
                      (rs.originStart + MIN_SHIFT_MINUTES) MINUTES_IN_DAY
                ∧ (applyResize rs (resizeDeltaMinutes rs clientX) s).start = rs.originStart)
            ∧ (applyResize rs (resizeDeltaMinutes rs clientX) s).start
                < (applyResize rs (resizeDeltaMinutes rs clientX) s).«end»
            ∧ MIN_SHIFT_MINUTES ≤ (applyResize rs (resizeDeltaMinutes rs clientX) s).«end»
                - (applyResize rs (resizeDeltaMinutes rs clientX) s).start) := by
  have h30 : (0 : ℤ) < MIN_SHIFT_MINUTES := by decide
  refine ⟨rfl, fun s _ => ?_⟩
  constructor
  · intro hne
    simp [applyResize, hne]
  · intro heq
    cases hedge : rs.edge with
    | left =>
      have hres : applyResize rs (resizeDeltaMinutes rs clientX) s
          = {s with
              start := clamp (rs.originStart + resizeDeltaMinutes rs clientX) 0
                (rs.originEnd - MIN_SHIFT_MINUTES),
              «end» := rs.originEnd} := by
        simp [applyResize, heq, hedge]
      rw [hres]
      have hc := clamp_le_hi (rs.originStart + resizeDeltaMinutes rs clientX) 0
        (rs.originEnd - MIN_SHIFT_MINUTES)
      refine ⟨fun _ => ⟨rfl, rfl⟩, fun hr => Edge.noConfusion hr, ?_, ?_⟩
      · simp only []
        linarith
      · simp only []
        linarith
    | right =>
      have hres : applyResize rs (resizeDeltaMinutes rs clientX) s
          = {s with
              start := rs.originStart,
              «end» := clamp (rs.originEnd + resizeDeltaMinutes rs clientX)
                (rs.originStart + MIN_SHIFT_MINUTES) MINUTES_IN_DAY} := by
        simp [applyResize, heq, hedge]
      rw [hres]
      have hlo : rs.originStart + MIN_SHIFT_MINUTES ≤ MINUTES_IN_DAY := le_trans hmin hmax
      have hc := lo_le_clamp (rs.originEnd + resizeDeltaMinutes rs clientX)
        (rs.originStart + MIN_SHIFT_MINUTES) MINUTES_IN_DAY hlo
      refine ⟨fun hr => Edge.noConfusion hr, fun _ => ⟨rfl, rfl⟩, ?_, ?_⟩
      · simp only []
        linarith
      · simp only []
        linarith

/-- Concrete resize state for the C1 counterexample: captured bounds
`originStart = 1440`, `originEnd = 1470` satisfy `originStart + 30 ≤
originEnd` but describe a shift reaching past the end of the day. -/
def c1exState : ResizeState := ⟨"s1", Edge.right, 0, 1440, 1470, 72⟩

/-- Shift collection for the C1 counterexample. -/
def c1exShifts : List Shift := [⟨"s1", "e1", "2024-02-15", "T", 1440, 1470⟩]

/-- C1 counterexample: with only `originStart + 30 ≤ originEnd` assumed (as
the claim states it), a right-edge resize clamps the end down to `1440`,
producing `end ≤ start` — the claimed consequence fails without the
additional bound `originEnd ≤ 1440`. -/
theorem c1_counterexample :
    c1exState.originStart + MIN_SHIFT_MINUTES ≤ c1exState.originEnd
    ∧ resizePointerMove c1exState 0 c1exShifts
        = [⟨"s1", "e1", "2024-02-15", "T", 1440, 1440⟩]
    ∧ ((resizePointerMove c1exState 0 c1exShifts).all fun s => s.«end» ≤ s.start) = true := by
  have hd : resizeDeltaMinutes c1exState 0 = 0 := by
    unfold resizeDeltaMinutes c1exState snapToStep jsRound SNAP_MINUTES
    norm_num
  refine ⟨by decide, ?_, ?_⟩
  · unfold resizePointerMove
    rw [hd]
    decide
  · unfold resizePointerMove
    rw [hd]
    decide

/-- Valid resize state for the C1 witness (a 09:00–13:00 shift). -/
def c1witState : ResizeState := ⟨"s1", Edge.right, 100, 540, 780, 72⟩

/-- Shift collection for the C1 witness. -/
def c1witShifts : List Shift := [⟨"s1", "e1", "2024-02-15", "Morning", 540, 780⟩]

/-- C1 witness: the amended theorem applied to a 09:00–13:00 shift dragged
at its right edge. -/
theorem c1_resize_clamps_witness :
    c1witState.originStart + MIN_SHIFT_MINUTES ≤ c1witState.originEnd
    ∧ resizePointerMove c1witState 136 c1witShifts
        = c1witShifts.map (applyResize c1witState
            (snapToStep ((136 - c1witState.originX) / c1witState.pixelsPerHour * 60))) :=
  ⟨by decide, (c1_resize_clamps c1witState 136 c1witShifts (by decide) (by decide)).1⟩

/-- Models `handleDropOnDateCell`: an empty drag payload (falsy `shiftId`)
is a no-op; otherwise only the dragged shift's `employeeId`/`dateKey` are
replaced by the drop target's. -/
def handleDropOnDateCell (shiftId employeeId dateKey : String)
    (shifts : List Shift) : List Shift :=
  if shiftId = "" then shifts
  else
    shifts.map fun shift =>
      if shift.id = shiftId then {shift with employeeId := employeeId, dateKey := dateKey}
      else shift

/-- Models `handleDropOnTimeline` (day view): an empty drag payload is a
no-op; otherwise the drop x offset is clamped into the timeline, the hour
index derived and clamped to `[0, 23]`, and the dragged shift is moved to
the drop target's employee/date with its start clamped so its duration
still fits in the day. -/
def handleDropOnTimeline (shiftId employeeId dateKey : String)
    (clientX rectLeft rectWidth : ℚ) (shifts : List Shift) : List Shift :=
  if shiftId = "" then shifts
  else
    let x := clampQ (clientX - rectLeft) 0 (rectWidth - 1)
    let hourIndex := clamp ⌊x / HOUR_WIDTH⌋ 0 23
    let cellStart := hourIndex * 60
    shifts.map fun shift =>
      if shift.id ≠ shiftId then shift
      else
        let duration := shift.«end» - shift.start
        let nextStart := clamp cellStart 0 (MINUTES_IN_DAY - duration)
        {shift with
          employeeId := employeeId, dateKey := dateKey,
          start := nextStart, «end» := nextStart + duration}

/-- C9: a drop of a dragged shift on a whole date-cell rewrites only the
dragged shift's `employeeId` and `dateKey` to the drop target's; its id,
title, start and end are untouched, and every other shift is returned
unchanged. -/
theorem c9_drop_on_date_cell_frame (shiftId employeeId dateKey : String)
    (shifts : List Shift) (hid : shiftId ≠ "") :
    handleDropOnDateCell shiftId employeeId dateKey shifts
      = shifts.map (fun shift =>
          if shift.id = shiftId then {shift with employeeId := employeeId, dateKey := dateKey}
          else shift)
    ∧ ∀ s ∈ shifts,
        (s.id ≠ shiftId →
          (if s.id = shiftId then {s with employeeId := employeeId, dateKey := dateKey} else s)
            = s)
        ∧ (s.id = shiftId →
          (if s.id = shiftId then {s with employeeId := employeeId, dateKey := dateKey} else s)
            = ⟨s.id, employeeId, dateKey, s.title, s.start, s.«end»⟩) := by
  refine ⟨by simp [handleDropOnDateCell, hid], fun s _ => ⟨fun hne => by simp [hne], fun heq => ?_⟩⟩
  simp [heq]

/-- Shift collection for the C9 witness. -/
def c9witShifts : List Shift :=
  [⟨"s1", "e1", "2024-02-10", "T", 540, 780⟩, ⟨"s2", "e2", "2024-02-11", "U", 600, 660⟩]

/-- C9 witness: the frame theorem applied to a concrete two-shift
collection. -/
theorem c9_drop_on_date_cell_witness :
    handleDropOnDateCell "s1" "e3" "2024-02-12" c9witShifts
      = c9witShifts.map (fun shift =>
          if shift.id = "s1" then {shift with employeeId := "e3", dateKey := "2024-02-12"}
          else shift) :=
  (c9_drop_on_date_cell_frame "s1" "e3" "2024-02-12" c9witShifts (by decide)).1

/-- A JavaScript number that is either a finite integer or `NaN` (`none`).
Only the modal save pipeline needs explicit `NaN`s: a missing time
component makes `parseTime` produce `NaN`, which then flows through
`snapToStep` and the comparison guards. -/
abbrev JsNum := Option ℤ

/-- `snapToStep` restricted to integer inputs, written with integer floor
division so that it evaluates by kernel reduction;
`snapToStepInt_eq` proves it agrees with `snapToStep`. -/
def snapToStepInt (t : ℤ) : ℤ :=
  (2 * t + SNAP_MINUTES) / (2 * SNAP_MINUTES) * SNAP_MINUTES

/-- `snapToStepInt` is `snapToStep` on integer minute values. -/
theorem snapToStepInt_eq (t : ℤ) : snapToStepInt t = snapToStep (t : ℚ) := by
  have h : ((t : ℚ)) / (((15 : ℤ) : ℚ)) + 1 / 2 = ((2 * t + 15 : ℤ) : ℚ) / ((30 : ℕ) : ℚ) := by
    push_cast
    ring
  unfold snapToStepInt snapToStep jsRound SNAP_MINUTES
  rw [h, Rat.floor_intCast_div_natCast]
  norm_num

/-- `snapToStep` applied to a possibly-`NaN` number:
`Math.round(NaN / step) * step` is `NaN`. -/
def jsSnap : JsNum → JsNum
  | some t => some (snapToStepInt t)
  | none => none

/-- JavaScript `<=` on possibly-`NaN` numbers: any comparison with `NaN` is
false. -/
def jsLeB : JsNum → JsNum → Bool
  | some a, some b => decide (a ≤ b)
  | _, _ => false

/-- JavaScript `<` on possibly-`NaN` numbers: any comparison with `NaN` is
false. -/
def jsLtB : JsNum → JsNum → Bool
  | some a, some b => decide (a < b)
  | _, _ => false

/-- Subtraction on possibly-`NaN` numbers: `NaN` propagates. -/
def jsSub : JsNum → JsNum → JsNum
  | some a, some b => some (a - b)
  | _, _ => none

/-- The numeric value of a non-`null` `parseTime` result (`NaN` for the
missing-minute case). -/
def JsTime.toNum : JsTime → JsNum
  | JsTime.fin t => some t
  | _ => none

/-- Whether the modal draft is creating a new shift or editing one. -/
inductive DraftMode
  | create
  | edit
deriving DecidableEq, Repr

/-- The modal draft (`ModalDraft` in the source): `shiftId` is only present
in edit mode. -/
structure ModalDraft where
  mode : DraftMode
  shiftId : Option String
  employeeId : String
  dateKey : String
  title : String
  startTime : String
  endTime : String
deriving DecidableEq, Repr

/-- The four user-facing validation errors of the save handler, identified
by their translation key (the handler stores the looked-up message
string). -/
inductive SaveError
  | invalidDate
  | invalidTime
  | endAfterStart
  | minShiftDuration
deriving DecidableEq, Repr

/-- A shift as the save handler can produce it: its minute fields carry the
snapped parse results, which can be `NaN`. -/
structure JsShift where
  id : String
  employeeId : String
  dateKey : String
  title : String
  start : JsNum
  «end» : JsNum
deriving DecidableEq, Repr

/-- Result of one save-handler invocation: the updated collection, the
error message (if any), and whether the modal was closed. -/
structure SaveOutcome where
  shifts : List JsShift
  error : Option SaveError
  modalClosed : Bool
deriving DecidableEq, Repr

/-- JavaScript `s || d` on strings: the empty string is falsy. -/
def orDefault (s d : String) : String := if s = "" then d else s

/-- Models `String.prototype.trim`: strip whitespace from both ends
(structurally, on the character list). -/
def jsTrim (s : String) : String :=
  String.mk (((s.data.dropWhile Char.isWhitespace).reverse.dropWhile Char.isWhitespace).reverse)

/-- Models `handleSaveShift`: reject an unparseable date, then a `null`
time, then `snappedEnd <= snappedStart`, then a duration below 30 minutes
(each rejection sets an error and leaves the collection and the open modal
untouched); otherwise replace the edited shift in place
(`mode === 'edit' && shiftId`, a falsy empty id falling back to creation)
or append a freshly created shift, and close the modal.  `freshId` stands
for the `crypto.randomUUID()` result and `defaultTitle` for the
language-dependent default title. -/
def handleSaveShift (freshId defaultTitle : String) (draft : ModalDraft)
    (shifts : List JsShift) : SaveOutcome :=
  if (parseDateKey draft.dateKey).isNone then ⟨shifts, some SaveError.invalidDate, false⟩
  else
    let startT := parseTime draft.startTime
    let endT := parseTime draft.endTime
    if startT = JsTime.null ∨ endT = JsTime.null then
      ⟨shifts, some SaveError.invalidTime, false⟩
    else
      let snappedStart := jsSnap startT.toNum
      let snappedEnd := jsSnap endT.toNum
      if jsLeB snappedEnd snappedStart then ⟨shifts, some SaveError.endAfterStart, false⟩
      else if jsLtB (jsSub snappedEnd snappedStart) (some MIN_SHIFT_MINUTES) then
        ⟨shifts, some SaveError.minShiftDuration, false⟩
      else
        let newTitle := orDefault (jsTrim draft.title) defaultTitle
        let editTarget : Option String :=
          match draft.mode, draft.shiftId with
          | DraftMode.edit, some sid => if sid = "" then none else some sid
          | _, _ => none
        match editTarget with
        | some sid =>
          ⟨shifts.map fun s =>
              if s.id = sid then
                {s with
                  employeeId := draft.employeeId
                  dateKey := draft.dateKey
                  title := newTitle
                  start := snappedStart
                  «end» := snappedEnd}
              else s,
            none, true⟩
        | none =>
          ⟨shifts ++
              [⟨freshId, draft.employeeId, draft.dateKey, newTitle, snappedStart, snappedEnd⟩],
            none, true⟩

/-- The data-model invariants of a stored shift, as a decidable check:
both minute fields finite, `0 ≤ start < end ≤ 1440`, duration at least 30,
and both multiples of 15. -/
def validShiftB (s : JsShift) : Bool :=
  match s.start, s.«end» with
  | some a, some b =>
    decide (0 ≤ a ∧ a < b ∧ b ≤ (1440 : ℤ) ∧ 30 ≤ b - a ∧ a % 15 = 0 ∧ b % 15 = 0)
  | _, _ => false

/-- Draft exhibiting the `NaN` leak: the start time field was cleared
(`<input type="time">` submits the empty string), which does not parse as
`"HH:MM"`. -/
def bugDraft : ModalDraft :=
  ⟨DraftMode.create, none, "e1", "2024-02-15", "T", "", "13:00"⟩

/-- A collection with a single shift satisfying all data-model
invariants. -/
def bugShifts : List JsShift :=
  [⟨"s1", "e1", "2024-02-15", "Shift", some 540, some 780⟩]

/-- C3: applied to a collection whose shifts all satisfy the invariants,
the modal save handler with a cleared start-time field appends a shift with
a `NaN` start — `Number('') = 0`, the destructured minute component is
`undefined`, both `Number.isNaN` guards and all range checks are false, so
`parseTime` returns `0 * 60 + undefined = NaN`, and every subsequent guard
comparison on `NaN` is false — so the resulting collection violates the
invariants: the mutation-path preservation claim fails on this path. -/
theorem c3_save_handler_breaks_invariants :
    (bugShifts.all validShiftB) = true
    ∧ ((handleSaveShift "fresh-id" "Shift" bugDraft bugShifts).shifts.all validShiftB) = false := by
  exact ⟨by decide, by decide⟩

/-- C8: on the same failing input — a start time that does not parse as
`"HH:MM"` — the handler sets no error, closes the modal, and appends a new
shift whose start is `NaN`, contradicting the claimed
error-set/draft-open/no-mutation behaviour of failed validation. -/
theorem c8_save_handler_nan_leak :
    parseTime bugDraft.startTime = JsTime.nan
    ∧ (handleSaveShift "fresh-id" "Shift" bugDraft bugShifts).error = none
    ∧ (handleSaveShift "fresh-id" "Shift" bugDraft bugShifts).modalClosed = true
    ∧ (handleSaveShift "fresh-id" "Shift" bugDraft bugShifts).shifts
        = bugShifts ++ [⟨"fresh-id", "e1", "2024-02-15", "T", none, some 780⟩] := by
  refine ⟨by decide, by decide, by decide, by decide⟩

/-- The storage-relevant application state: the shift collection, the
`isStorageReady` flag (initially `false`), and the log of
`saveShiftsToIndexedDb` calls issued so far (each entry records the
collection passed to the call). -/
structure StorageState where
  shifts : List Shift
  isStorageReady : Bool
  saveLog : List (List Shift)

/-- The storage-relevant events of an execution: the single initial
`loadShiftsFromIndexedDb()` promise resolving (with the stored collection,
or `null` for an empty store) or rejecting, and any `setShifts` mutation
performed by the interaction handlers. -/
inductive StorageEvent
  | loadResolve (stored : Option (List Shift))
  | loadReject
  | mutateShifts (f : List Shift → List Shift)

/-- Whether an event is the initial load settling (resolving or
rejecting). -/
def isLoadSettled : StorageEvent → Bool
  | StorageEvent.loadResolve _ => true
  | StorageEvent.loadReject => true
  | StorageEvent.mutateShifts _ => false

/-- The save effect (`useEffect` with dependencies
`[isStorageReady, shifts]`): after any event that changed its
dependencies, it runs and — only if `isStorageReady` is set — issues
`saveShiftsToIndexedDb(shifts)` with the current collection. -/
def runSaveEffect (st : StorageState) : StorageState :=
  if st.isStorageReady then {st with saveLog := st.saveLog ++ [st.shifts]} else st

/-- One step of the event-driven model of the two effects: the load
settling installs the stored shifts (resolve only, when non-null) and sets
`isStorageReady := true` — in the success and in the failure branch alike —
and a mutation replaces the collection; after each event the save effect
runs on the new state. -/
def storageStep (st : StorageState) : StorageEvent → StorageState
  | StorageEvent.loadResolve stored =>
    runSaveEffect {st with shifts := stored.getD st.shifts, isStorageReady := true}
  | StorageEvent.loadReject =>
    runSaveEffect {st with isStorageReady := true}
  | StorageEvent.mutateShifts f =>
    runSaveEffect {st with shifts := f st.shifts}

/-- An execution: fold the events over the initial state, whose
`isStorageReady` flag is `false` and whose save log is empty. -/
def runStorage (init : List Shift) (events : List StorageEvent) : StorageState :=
  events.foldl storageStep ⟨init, false, []⟩

/-- Helper: the ready flag after a fold is the initial flag joined with
whether some processed event settled the load. -/
theorem storage_ready_fold (events : List StorageEvent) :
    ∀ st : StorageState, (events.foldl storageStep st).isStorageReady
      = (st.isStorageReady || events.any isLoadSettled) := by
  induction events with
  | nil => intro st; simp
  | cons e rest ih =>
    intro st
    rw [List.foldl_cons, List.any_cons, ih]
    cases e <;>
      · simp only [storageStep, runSaveEffect, isLoadSettled]
        split <;> simp [Bool.or_assoc]

/-- Helper: while no processed event settled the load and the flag is still
down, the save log does not grow. -/
theorem storage_log_fold (events : List StorageEvent)
    (hnone : events.any isLoadSettled = false) :
    ∀ st : StorageState, st.isStorageReady = false →
      (events.foldl storageStep st).saveLog = st.saveLog := by
  induction events with
  | nil => intro st _; simp
  | cons e rest ih =>
    intro st hst
    rw [List.any_cons] at hnone
    cases e with
    | loadResolve stored => simp [isLoadSettled] at hnone
    | loadReject => simp [isLoadSettled] at hnone
    | mutateShifts f =>
      have hrest : rest.any isLoadSettled = false := by
        simpa [isLoadSettled] using hnone
      rw [List.foldl_cons]
      have hstep : storageStep st (StorageEvent.mutateShifts f)
          = {st with shifts := f st.shifts} := by
        simp [storageStep, runSaveEffect, hst]
      rw [hstep]
      exact ih hrest _ hst

/-- C2: in the modelled executions, the `isStorageReady` flag is raised
exactly when some event settled the initial load (so, with the single load
promise settling at most once, it starts `false` and becomes `true` exactly
once, whether the load resolves or rejects), and as long as no event
settled the load, no `saveShiftsToIndexedDb` call has been issued. -/
theorem c2_save_gated_on_load (init : List Shift) (events : List StorageEvent) :
    (runStorage init events).isStorageReady = events.any isLoadSettled
    ∧ (events.any isLoadSettled = false → (runStorage init events).saveLog = []) := by
  constructor
  · rw [runStorage, storage_ready_fold]
    simp
  · intro hnone
    rw [runStorage, storage_log_fold events hnone _ rfl]

/-- Event trace for the C2 witness: two mutations, the load still
pending. -/
def c2witEvents : List StorageEvent :=
  [StorageEvent.mutateShifts (fun l => l ++ [⟨"s9", "e1", "2024-02-15", "T", 540, 780⟩]),
   StorageEvent.mutateShifts (fun _ => [])]

/-- C2 witness: with a slow load (two mutations happen before any load
settlement), the flag stays down and no save call is issued. -/
theorem c2_save_gated_on_load_witness :
    (runStorage [] c2witEvents).isStorageReady = false
    ∧ (runStorage [] c2witEvents).saveLog = [] := by
  have h := c2_save_gated_on_load [] c2witEvents
  have hany : c2witEvents.any isLoadSettled = false := rfl
  exact ⟨by rw [h.1, hany], h.2 hany⟩

/-- Models `dateCellKey(employeeId, dateKey)`, the template literal
`employeeId + "|" + dateKey`. -/
def dateCellKey (employeeId dateKey : String) : String := employeeId ++ "|" ++ dateKey

/-- The bucket key of a shift, `dateCellKey(shift.employeeId,
shift.dateKey)`. -/
def cellKeyOf (s : Shift) : String := dateCellKey s.employeeId s.dateKey

/-- Stable insertion by `start`: the new element goes in front of the first
element whose start is not smaller.  Together with `sortByStart` this is the
behaviour of the stable ECMAScript `Array.prototype.sort` with comparator
`(a, b) => a.start - b.start` on the integer starts at hand. -/
def insertByStart (s : Shift) : List Shift → List Shift
  | [] => [s]
  | t :: ts => if t.start < s.start then t :: insertByStart s ts else s :: t :: ts

/-- Stable sort of a bucket by ascending `start`
(`list.sort((a, b) => a.start - b.start)` in the source). -/
def sortByStart : List Shift → List Shift
  | [] => []
  | s :: rest => insertByStart s (sortByStart rest)

/-- One step of the bucket map construction: `map.get(key)` followed by
`list.push(shift)` or `map.set(key, [shift])`, on an association list kept
in insertion order. -/
def bucketPush : List (String × List Shift) → String → Shift → List (String × List Shift)
  | [], key, s => [(key, [s])]
  | (k, l) :: rest, key, s =>
    if k = key then (k, l ++ [s]) :: rest
    else (k, l) :: bucketPush rest key s

/-- Models the `shiftsByEmployeeDate` memo: group the shifts by their cell
key in one pass, then sort every bucket by `start`. -/
def shiftsByEmployeeDate (shifts : List Shift) : List (String × List Shift) :=
  (shifts.foldl (fun m s => bucketPush m (cellKeyOf s) s) []).map
    (fun kv => (kv.1, sortByStart kv.2))

/-- Models `getShiftsForCell(employeeId, dateKey)`:
`shiftsByEmployeeDate.get(dateCellKey(employeeId, dateKey)) ?? []`. -/
def getShiftsForCell (shifts : List Shift) (employeeId dateKey : String) : List Shift :=
  ((shiftsByEmployeeDate shifts).lookup (dateCellKey employeeId dateKey)).getD []

/-- Looking up through the per-bucket sorting pass just sorts the raw
bucket. -/
theorem lookup_map_sort (m : List (String × List Shift)) (key : String) :
    (m.map (fun kv => (kv.1, sortByStart kv.2))).lookup key = (m.lookup key).map sortByStart := by
  induction m with
  | nil => rfl
  | cons kv rest ih =>
    obtain ⟨k, l⟩ := kv
    by_cases h : key = k
    · have hb : (key == k) = true := beq_iff_eq.mpr h
      simp [List.lookup, hb]
    · have hb : (key == k) = false := beq_eq_false_iff_ne.mpr h
      simp [List.lookup, hb, ih]

/-- Effect of one `bucketPush` on a bucket: pushing appends to the pushed
key's bucket and leaves every other bucket unchanged. -/
theorem lookup_bucketPush (m : List (String × List Shift)) (key : String) (s : Shift)
    (k : String) :
    ((bucketPush m key s).lookup k).getD []
      = if key = k then ((m.lookup k).getD []) ++ [s] else (m.lookup k).getD [] := by
  induction m with
  | nil =>
    by_cases h : key = k
    · have hb : (k == key) = true := beq_iff_eq.mpr h.symm
      simp [bucketPush, List.lookup, h, hb]
    · have hb : (k == key) = false := beq_eq_false_iff_ne.mpr (fun hk => h hk.symm)
      simp [bucketPush, List.lookup, h, hb]
  | cons kv rest ih =>
    obtain ⟨k', l⟩ := kv
    by_cases h1 : k' = key
    · subst h1
      by_cases h2 : k = k'
      · subst h2
        have hb : (k == k) = true := beq_iff_eq.mpr rfl
        simp [bucketPush, List.lookup, hb]
      · have hb : (k == k') = false := beq_eq_false_iff_ne.mpr h2
        have h2' : ¬ k' = k := fun hk => h2 hk.symm
        simp [bucketPush, List.lookup, h2', hb]
    · by_cases h2 : k = k'
      · subst h2
        have hkey : ¬ key = k := fun hk => h1 hk.symm
        have hb : (k == k) = true := beq_iff_eq.mpr rfl
        simp [bucketPush, List.lookup, h1, hkey, hb]
      · have hb : (k == k') = false := beq_eq_false_iff_ne.mpr h2
        simp [bucketPush, List.lookup, h1, hb, ih]

/-- The bucket of a key after the grouping fold: whatever was there before,
followed by the key's shifts in input order. -/
theorem lookup_fold_buckets (l : List Shift) :
    ∀ (m : List (String × List Shift)) (k : String),
      ((l.foldl (fun m s => bucketPush m (cellKeyOf s) s) m).lookup k).getD []
        = ((m.lookup k).getD []) ++ l.filter (fun s => cellKeyOf s == k) := by
  induction l with
  | nil => intro m k; simp
  | cons s rest ih =>
    intro m k
    rw [List.foldl_cons, ih]
    by_cases h : cellKeyOf s = k
    · rw [lookup_bucketPush, if_pos h]
      simp [List.filter_cons, h]
    · rw [lookup_bucketPush, if_neg h]
      simp [List.filter_cons, h]

/-- The index lookup is the stable sort of the key-filtered input. -/
theorem getShiftsForCell_eq (shifts : List Shift) (e k : String) :
    getShiftsForCell shifts e k
      = sortByStart (shifts.filter (fun s => cellKeyOf s == dateCellKey e k)) := by
  unfold getShiftsForCell shiftsByEmployeeDate
  rw [lookup_map_sort]
  have hmap : ∀ (o : Option (List Shift)), (o.map sortByStart).getD [] = sortByStart (o.getD []) := by
    intro o
    cases o <;> simp [sortByStart]
  rw [hmap, lookup_fold_buckets]
  simp

/-- Insertion produces a permutation of consing. -/
theorem insertByStart_perm (s : Shift) (l : List Shift) :
    (insertByStart s l).Perm (s :: l) := by
  induction l with
  | nil => exact List.Perm.refl _
  | cons t ts ih =>
    by_cases h : t.start < s.start
    · simp only [insertByStart, if_pos h]
      exact (ih.cons t).trans (List.Perm.swap s t ts)
    · simp only [insertByStart, if_neg h]
      exact List.Perm.refl _

/-- The stable sort permutes its input. -/
theorem sortByStart_perm (l : List Shift) : (sortByStart l).Perm l := by
  induction l with
  | nil => exact List.Perm.refl _
  | cons s rest ih =>
    exact (insertByStart_perm s (sortByStart rest)).trans (ih.cons s)

/-- Insertion into a start-sorted list keeps it start-sorted. -/
theorem insertByStart_sorted (s : Shift) (l : List Shift)
    (hl : l.Pairwise (fun a b => a.start ≤ b.start)) :
    (insertByStart s l).Pairwise (fun a b => a.start ≤ b.start) := by
  induction l with
  | nil => simp [insertByStart]
  | cons t ts ih =>
    rcases List.pairwise_cons.mp hl with ⟨ht, hts⟩
    by_cases h : t.start < s.start
    · simp only [insertByStart, if_pos h]
      rw [List.pairwise_cons]
      refine ⟨fun x hx => ?_, ih hts⟩
      have hx' : x ∈ s :: ts := (insertByStart_perm s ts).mem_iff.mp hx
      rcases List.mem_cons.mp hx' with rfl | hmem
      · exact le_of_lt h
      · exact ht x hmem
    · simp only [insertByStart, if_neg h]
      rw [List.pairwise_cons]
      refine ⟨fun x hx => ?_, hl⟩
      rcases List.mem_cons.mp hx with rfl | hmem
      · exact le_of_not_lt h
      · exact le_trans (le_of_not_lt h) (ht x hmem)

/-- The stable sort produces a start-sorted list. -/
theorem sortByStart_sorted (l : List Shift) :
    (sortByStart l).Pairwise (fun a b => a.start ≤ b.start) := by
  induction l with
  | nil => simp [sortByStart]
  | cons s rest ih => exact insertByStart_sorted s (sortByStart rest) ih

/-- Stability of the insertion: restricted to any fixed start value, the
inserted list reads exactly like consing the element in front. -/
theorem filter_start_insertByStart (s : Shift) (l : List Shift) (v : ℤ) :
    (insertByStart s l).filter (fun t => t.start == v)
      = ((s :: l).filter (fun t => t.start == v)) := by
  induction l with
  | nil => rfl
  | cons t ts ih =>
    by_cases h : t.start < s.start
    · simp only [insertByStart, if_pos h]
      by_cases hs : s.start = v
      · have htv : (t.start == v) = false := by
          have : t.start ≠ v := by
            rw [← hs]
            exact ne_of_lt h
          simp [this]
        rw [List.filter_cons, htv]
        rw [ih]
        simp only [List.filter_cons, htv]
        simp
      · have hsv : (s.start == v) = false := by simp [hs]
        rw [List.filter_cons, ih]
        simp only [List.filter_cons, hsv]
        cases htv : (t.start == v) <;> simp [List.filter_cons, htv, hsv]
    · simp only [insertByStart, if_neg h]

/-- Stability of the stable sort: restricted to any fixed start value, the
sorted bucket keeps the input order. -/
theorem filter_start_sortByStart (l : List Shift) (v : ℤ) :
    (sortByStart l).filter (fun t => t.start == v) = l.filter (fun t => t.start == v) := by
  induction l with
  | nil => rfl
  | cons s rest ih =>
    rw [sortByStart, filter_start_insertByStart]
    simp only [List.filter_cons]
    rw [ih]

/-- Lists glued around a separator absent from both prefixes split
uniquely. -/
theorem append_sep_inj (sep : Char) :
    ∀ (l1 l2 r1 r2 : List Char), sep ∉ l1 → sep ∉ l2 →
      l1 ++ sep :: r1 = l2 ++ sep :: r2 → l1 = l2 ∧ r1 = r2 := by
  intro l1
  induction l1 with
  | nil =>
    intro l2 r1 r2 _ h2 heq
    cases l2 with
    | nil => simpa using heq
    | cons c cs =>
      simp only [List.nil_append, List.cons_append, List.cons.injEq] at heq
      exact absurd (heq.1 ▸ List.mem_cons_self c cs) (heq.1 ▸ h2)
  | cons c cs ih =>
    intro l2 r1 r2 h1 h2 heq
    cases l2 with
    | nil =>
      simp only [List.cons_append, List.nil_append, List.cons.injEq] at heq
      exact absurd (heq.1 ▸ List.mem_cons_self c cs) (fun hm => h1 (heq.1 ▸ hm))
    | cons d ds =>
      simp only [List.cons_append, List.cons.injEq] at heq
      have h1' : sep ∉ cs := fun hm => h1 (List.mem_cons_of_mem c hm)
      have h2' : sep ∉ ds := fun hm => h2 (List.mem_cons_of_mem d hm)
      obtain ⟨he, hk⟩ := ih ds r1 r2 h1' h2' heq.2
      exact ⟨by rw [heq.1, he], hk⟩

/-- The character list of a cell key. -/
theorem dateCellKey_data (e k : String) :
    (dateCellKey e k).data = e.data ++ '|' :: k.data := by
  show (e ++ "|" ++ k).data = e.data ++ '|' :: k.data
  rw [String.data_append, String.data_append, List.append_assoc]
  rfl

/-- The cell key is injective as long as the employee id contains no `'|'`
separator (the date keys may be arbitrary). -/
theorem dateCellKey_inj (e1 k1 e2 k2 : String)
    (h1 : '|' ∉ e1.data) (h2 : '|' ∉ e2.data) :
    dateCellKey e1 k1 = dateCellKey e2 k2 ↔ (e1 = e2 ∧ k1 = k2) := by
  constructor
  · intro h
    have hd : (dateCellKey e1 k1).data = (dateCellKey e2 k2).data := by rw [h]
    rw [dateCellKey_data, dateCellKey_data] at hd
    obtain ⟨he, hk⟩ := append_sep_inj '|' e1.data e2.data k1.data k2.data h1 h2 hd
    exact ⟨String.ext he, String.ext hk⟩
  · rintro ⟨rfl, rfl⟩
    rfl

/-- C5 (amended): for collections whose employee ids — like the app's fixed
roster and any key not containing the `'|'` separator — are `'|'`-free, and
a `'|'`-free queried employee id, the index lookup returns exactly the
shifts of the queried (employeeId, dateKey) cell, sorted ascending by start
with ties in input order (stable), and the empty list (never a missing
value) for a cell with no shifts. -/
theorem c5_index_lookup (shifts : List Shift) (e k : String)
    (he : '|' ∉ e.data)
    (hall : ∀ s ∈ shifts, '|' ∉ s.employeeId.data) :
    getShiftsForCell shifts e k
      = sortByStart (shifts.filter (fun s => s.employeeId == e && s.dateKey == k))
    ∧ (getShiftsForCell shifts e k).Perm
        (shifts.filter (fun s => s.employeeId == e && s.dateKey == k))
    ∧ (getShiftsForCell shifts e k).Pairwise (fun a b => a.start ≤ b.start)
    ∧ (∀ v : ℤ, (getShiftsForCell shifts e k).filter (fun t => t.start == v)
        = (shifts.filter (fun s => s.employeeId == e && s.dateKey == k)).filter
            (fun t => t.start == v))
    ∧ (shifts.filter (fun s => s.employeeId == e && s.dateKey == k) = [] →
        getShiftsForCell shifts e k = []) := by
  have hfeq : shifts.filter (fun s => cellKeyOf s == dateCellKey e k)
      = shifts.filter (fun s => s.employeeId == e && s.dateKey == k) := by
    apply List.filter_congr
    intro s hs
    have hinj := dateCellKey_inj s.employeeId s.dateKey e k (hall s hs) he
    by_cases hp : s.employeeId = e ∧ s.dateKey = k
    · have hkey : cellKeyOf s = dateCellKey e k := by
        unfold cellKeyOf
        exact hinj.mpr hp
      simp [hkey, hp.1, hp.2]
    · have hkey : cellKeyOf s ≠ dateCellKey e k := by
        unfold cellKeyOf
        intro hk
        exact hp (hinj.mp hk)
      have hb : (cellKeyOf s == dateCellKey e k) = false := beq_eq_false_iff_ne.mpr hkey
      rw [hb]
      rcases Decidable.not_and_iff_or_not.mp hp with hne | hne
      · have : (s.employeeId == e) = false := beq_eq_false_iff_ne.mpr hne
        simp [this]
      · have : (s.dateKey == k) = false := beq_eq_false_iff_ne.mpr hne
        simp [this]
  have hmain : getShiftsForCell shifts e k
      = sortByStart (shifts.filter (fun s => s.employeeId == e && s.dateKey == k)) := by
    rw [getShiftsForCell_eq, hfeq]
  refine ⟨hmain, ?_, ?_, ?_, ?_⟩
  · rw [hmain]
    exact sortByStart_perm _
  · rw [hmain]
    exact sortByStart_sorted _
  · intro v
    rw [hmain]
    exact filter_start_sortByStart _ v
  · intro h
    rw [hmain, h]
    rfl

/-- Collection for the C5 counterexample: one shift whose employee id
contains the `'|'` key separator. -/
def c5exShifts : List Shift := [⟨"s1", "a|b", "c", "T", 600, 660⟩]

/-- C5 counterexample: the cell `("a", "b|c")` contains no shift, yet the
lookup returns one — the derived key `"a|b|c"` collides with the key of the
cell `("a|b", "c")`, so the index does not map every (employeeId, dateKey)
pair to exactly the shifts of that cell. -/
theorem c5_counterexample :
    getShiftsForCell c5exShifts "a" "b|c" = [⟨"s1", "a|b", "c", "T", 600, 660⟩]
    ∧ c5exShifts.filter (fun s => s.employeeId == "a" && s.dateKey == "b|c") = [] := by
  exact ⟨by decide, by decide⟩

/-- Shift `A(start = 600)` of the specification's index example. -/
def c5witA : Shift := ⟨"sA", "e1", "2024-02-15", "A", 600, 780⟩

/-- Shift `B(start = 300)` of the specification's index example. -/
def c5witB : Shift := ⟨"sB", "e1", "2024-02-15", "B", 300, 420⟩

/-- Collection `[A, B]` in the same cell, in this input order. -/
def c5witShifts : List Shift := [c5witA, c5witB]

/-- C5 witness: the amended theorem at the specification's example — with
`A(start=600)` before `B(start=300)` in the input, the lookup returns
`[B, A]`. -/
theorem c5_index_lookup_witness :
    getShiftsForCell c5witShifts "e1" "2024-02-15" = [c5witB, c5witA] := by
  have h := (c5_index_lookup c5witShifts "e1" "2024-02-15" (by decide) (by decide)).1
  rw [h]
  decide
